import Mathlib

/-!
Shallow embedding of the Q-Flash PostgreSQL extension (`q-flash.c`).

The extension hooks the executor lifecycle (ExecutorStart / Run / Finish /
End), decides per execution whether to log it (`qflash_enabled`), renders the
plan at ExecutorEnd, and inserts one row into a configured sink table via SPI
(`log_InRelation`).  Machine integers that can never overflow in the modelled
scenarios (Oids, nesting counters) are modelled as `Nat` / `Int`; the C
`double` duration arithmetic (`total * 1000.0 <= qflash_log_min_duration`) is
modelled over `Rat`.  The opaque engine services (catalog lookup, plan
rendering, SPI) are parameters of the model: the catalog is a `Catalog`
record of lookup functions, the rendered plan text is an input `List Char`,
and SPI connection management is recorded as a list of `SpiAction`s.
-/

set_option maxHeartbeats 1000000

set_option maxRecDepth 100000

/-- PostgreSQL object identifier.  `InvalidOid` is 0, as in the engine. -/
abbrev Oid := Nat

def InvalidOid : Oid := 0

/-- `OidIsValid(objectId)` from the engine headers: valid iff not `InvalidOid`. -/
def OidIsValid (o : Oid) : Bool := o != InvalidOid

/-- `TypeRelationId`: the fixed oid of the engine's `pg_type` catalog relation. -/
def TypeRelationId : Oid := 1247

/-- The engine's name-resolution services used by the extension:
`get_namespace_oid(name, true)` and `get_relname_relid(name, namespaceId)`,
both returning `InvalidOid` on failure. -/
structure Catalog where
  get_namespace_oid : String → Oid
  get_relname_relid : String → Oid → Oid

/-- The extension's process-wide mutable globals, in declaration order of the
C source (GUC variables plus the two nesting counters). -/
structure QFlashState where
  qflash_enabled_status : Bool
  qflash_log_min_duration : Rat
  qflash_log_hash : String
  qflash_log_rel_name : String
  qflash_log_namespace_name : String
  qflash_log_namespace_oid : Oid
  qflash_log_rel_oid : Oid
  qflash_log_nested : Bool
  nesting_level : Int
  nesting_spi_level : Int
deriving DecidableEq

/-- `CmdType` from the engine: the operation kind of a query. -/
inductive CmdType where
  | unknown
  | select
  | update
  | insert
  | delete
  | utility
  | nothing
deriving DecidableEq

/-- The fields of `QueryDesc` that the extension reads.
`relationOids` models `plannedstmt->relationOids`; the empty list models the
`NULL` (`NIL`) list, which is the engine's only representation of an empty
oid list. -/
structure QueryDesc where
  operation : CmdType
  relationOids : List Oid
  sourceText : String
deriving DecidableEq

/-- `set_qflash_namespace_oid`: resolve the namespace name and cache the
result in `qflash_log_namespace_oid`; `false` on empty name or failed
resolution.  Note that a failed resolution still overwrites the cached oid
with `InvalidOid` before returning `false`. -/
def set_qflash_namespace_oid (cat : Catalog) (namespace_name : String)
    (st : QFlashState) : Bool × QFlashState :=
  if namespace_name.length = 0 then (false, st)
  else
    let st1 := { st with qflash_log_namespace_oid := cat.get_namespace_oid namespace_name }
    if OidIsValid st1.qflash_log_namespace_oid = false then (false, st1)
    else (true, st1)

/-- `set_qflash_relname_oid`: resolve the relation name inside the cached
namespace and cache the result in `qflash_log_rel_oid`; requires a valid
cached namespace oid and a non-empty name. -/
def set_qflash_relname_oid (cat : Catalog) (relname_name : String)
    (st : QFlashState) : Bool × QFlashState :=
  if OidIsValid st.qflash_log_namespace_oid = false ∨ relname_name.length = 0 then (false, st)
  else
    let st1 := { st with
      qflash_log_rel_oid :=
        cat.get_relname_relid relname_name st.qflash_log_namespace_oid }
    if OidIsValid st1.qflash_log_rel_oid = false then (false, st1)
    else (true, st1)

/-- `get_qflash_log_rel_oid`: lazily (re)resolve namespace then relation when
the cached relation oid is invalid, then return the cached relation oid. -/
def get_qflash_log_rel_oid (cat : Catalog) (st : QFlashState) : Oid × QFlashState :=
  if OidIsValid st.qflash_log_rel_oid = false then
    let p1 := set_qflash_namespace_oid cat st.qflash_log_namespace_name st
    let p2 := set_qflash_relname_oid cat st.qflash_log_rel_name p1.2
    (p2.2.qflash_log_rel_oid, p2.2)
  else (st.qflash_log_rel_oid, st)

/-- The recursion-guard conjunct of `qflash_enabled` (its final `&&` line):
`relationOids == NULL || (length > 0 && head != qflash_log_rel_oid
&& head != TypeRelationId)`. -/
def qflash_recursion_guard (relationOids : List Oid) (log_rel_oid : Oid) : Bool :=
  decide (relationOids = []) ||
    (decide (0 < relationOids.length)
      && decide (relationOids.headD InvalidOid ≠ log_rel_oid)
      && decide (relationOids.headD InvalidOid ≠ TypeRelationId))

/-- `qflash_enabled(queryDesc)`: the eligibility decision.  Returns the C
boolean together with the state after the (possibly side-effecting) lazy
resolution performed by `get_qflash_log_rel_oid`, respecting the `&&`
short-circuit order of the source. -/
def qflash_enabled (cat : Catalog) (qd : QueryDesc) (st : QFlashState) :
    Bool × QFlashState :=
  if st.qflash_enabled_status = true
      ∧ (st.nesting_level = 0 ∨ st.qflash_log_nested = true) then
    let p := get_qflash_log_rel_oid cat st
    if OidIsValid p.1 = true
        ∧ (qd.operation = CmdType.select ∨ qd.operation = CmdType.update
            ∨ qd.operation = CmdType.insert ∨ qd.operation = CmdType.delete) then
      (qflash_recursion_guard qd.relationOids p.2.qflash_log_rel_oid, p.2)
    else (false, p.2)
  else (false, st)

/-- `enabled_GucAssign(newval, extra)`: the assign hook of `qflash.enabled`;
invalidates both cached oids when the new value is `false`. -/
def enabled_GucAssign (newval : Bool) (st : QFlashState) : QFlashState :=
  if newval = true then st
  else { st with
    qflash_log_rel_oid := InvalidOid
    qflash_log_namespace_oid := InvalidOid }

/-- `namespace_GucCheck`: check hook for `qflash.log_namespace_name`; when
enabled it eagerly resolves the proposed name (mutating the cached namespace
oid) and refuses the setting on failure. -/
def namespace_GucCheck (cat : Catalog) (newval : String) (st : QFlashState) :
    Bool × QFlashState :=
  if st.qflash_enabled_status = true then
    let p := set_qflash_namespace_oid cat newval st
    if p.1 = false then (false, p.2) else (true, p.2)
  else (true, st)

/-- `rel_GucCheck`: check hook for `qflash.log_relname`, analogous to
`namespace_GucCheck`. -/
def rel_GucCheck (cat : Catalog) (newval : String) (st : QFlashState) :
    Bool × QFlashState :=
  if st.qflash_enabled_status = true then
    let p := set_qflash_relname_oid cat newval st
    if p.1 = false then (false, p.2) else (true, p.2)
  else (true, st)

/-- The GUC machinery setting `qflash.enabled`: it calls the assign hook and
stores the new value (a refused bool setting cannot occur here since the
variable has no check hook). -/
def guc_setEnabled (newval : Bool) (st : QFlashState) : QFlashState :=
  { enabled_GucAssign newval st with qflash_enabled_status := newval }

/-- The GUC machinery setting `qflash.log_namespace_name`: run the check
hook; commit the string only if the check passed (side effects of the check
on the cached oid persist either way). -/
def guc_setNamespaceName (cat : Catalog) (newval : String) (st : QFlashState) :
    QFlashState :=
  let p := namespace_GucCheck cat newval st
  if p.1 = true then { p.2 with qflash_log_namespace_name := newval } else p.2

/-- The GUC machinery setting `qflash.log_relname`, analogous to
`guc_setNamespaceName`. -/
def guc_setRelName (cat : Catalog) (newval : String) (st : QFlashState) :
    QFlashState :=
  let p := rel_GucCheck cat newval st
  if p.1 = true then { p.2 with qflash_log_rel_name := newval } else p.2

/-- One observable operation on the extension's configuration state:
a GUC assignment, or an eligibility check (the point where lazy resolution
runs) performed by the executor hooks. -/
inductive GucOp where
  | setEnabled (b : Bool)
  | setNamespaceName (s : String)
  | setRelName (s : String)
  | runEligibilityCheck (qd : QueryDesc)
deriving DecidableEq

def applyGucOp (cat : Catalog) (st : QFlashState) (op : GucOp) : QFlashState :=
  match op with
  | GucOp.setEnabled b => guc_setEnabled b st
  | GucOp.setNamespaceName s => guc_setNamespaceName cat s st
  | GucOp.setRelName s => guc_setRelName cat s st
  | GucOp.runEligibilityCheck qd => (qflash_enabled cat qd st).2

/-- The state right after `_PG_init`: all GUC variables at their registered
defaults, both cached oids invalid, both nesting counters zero. -/
def initialState : QFlashState :=
  { qflash_enabled_status := false
    qflash_log_min_duration := 0
    qflash_log_hash := ""
    qflash_log_rel_name := ""
    qflash_log_namespace_name := ""
    qflash_log_namespace_oid := InvalidOid
    qflash_log_rel_oid := InvalidOid
    qflash_log_nested := false
    nesting_level := 0
    nesting_spi_level := 0 }

/-- A state reachable through a sequence of configuration operations and
eligibility checks starting from `initialState`. -/
def runGucOps (cat : Catalog) (ops : List GucOp) : QFlashState :=
  ops.foldl (applyGucOp cat) initialState

/-- `explain_ExecutorRun`: increment `nesting_level`, delegate inside
`PG_TRY`, decrement; on `PG_CATCH` decrement and `PG_RE_THROW`.  The
delegate (`prev_ExecutorRun` or `standard_ExecutorRun`, including every
nested execution it performs) is the function argument `inner`, mapping the
nesting level at entry to its outcome (`Except.error` models a raised
engine error) and the nesting level when it returns or raises. -/
def explain_ExecutorRun (inner : Int → Except Unit Unit × Int)
    (nesting_level : Int) : Except Unit Unit × Int :=
  match inner (nesting_level + 1) with
  | (Except.ok _, n1) => (Except.ok (), n1 - 1)
  | (Except.error e, n1) => (Except.error e, n1 - 1)

/-- `explain_ExecutorFinish`: identical nesting-depth discipline to
`explain_ExecutorRun`, delegating to `prev_ExecutorFinish` or
`standard_ExecutorFinish`. -/
def explain_ExecutorFinish (inner : Int → Except Unit Unit × Int)
    (nesting_level : Int) : Except Unit Unit × Int :=
  match inner (nesting_level + 1) with
  | (Except.ok _, n1) => (Except.ok (), n1 - 1)
  | (Except.error e, n1) => (Except.error e, n1 - 1)

/-- The shape of one hooked execution: the delegated native call performs the
child executions in order, then itself either returns normally or raises
(`abortsAfterChildren`).  An error raised by a child propagates out of the
delegate (after the child's own hook has decremented and re-thrown). -/
inductive ExecCall where
  | mk (children : List ExecCall) (abortsAfterChildren : Bool)

mutual

/-- Run one hooked execution (the body of `explain_ExecutorRun` /
`explain_ExecutorFinish` with the delegate inlined), returning the outcome
and the final `nesting_level`. -/
def execCall : ExecCall → Int → Except Unit Unit × Int
  | ExecCall.mk children ab, n =>
    match execSeq children (n + 1) with
    | (Except.ok _, n1) =>
        ((if ab = true then Except.error () else Except.ok ()), n1 - 1)
    | (Except.error e, n1) => (Except.error e, n1 - 1)

/-- Run a sequence of hooked executions, stopping at the first raised
error (which propagates). -/
def execSeq : List ExecCall → Int → Except Unit Unit × Int
  | [], n => (Except.ok (), n)
  | c :: cs, n =>
    match execCall c n with
    | (Except.ok _, n1) => execSeq cs n1
    | (Except.error e, n1) => (Except.error e, n1)

end

/-- The delegate corresponding to an `ExecCall`: run the children, then
possibly raise. -/
def nativeDelegate (children : List ExecCall) (abortsAfterChildren : Bool)
    (n : Int) : Except Unit Unit × Int :=
  match execSeq children n with
  | (Except.ok _, n1) =>
      ((if abortsAfterChildren = true then Except.error () else Except.ok ()), n1)
  | (Except.error e, n1) => (Except.error e, n1)

/-- `execCall` is exactly `explain_ExecutorRun` applied to the corresponding
native delegate. -/
theorem execCall_eq_hook (children : List ExecCall) (ab : Bool) (n : Int) :
    execCall (ExecCall.mk children ab) n
      = explain_ExecutorRun (nativeDelegate children ab) n := by
  unfold execCall explain_ExecutorRun nativeDelegate
  rcases h : execSeq children (n + 1) with ⟨r, n1⟩
  cases r with
  | ok a => cases ab <;> simp
  | error e => simp

mutual

theorem execCall_preserves_depth : ∀ (c : ExecCall) (n : Int), (execCall c n).2 = n
  | ExecCall.mk children ab, n => by
    have h := execSeq_preserves_depth children (n + 1)
    unfold execCall
    rcases hs : execSeq children (n + 1) with ⟨r, n1⟩
    rw [hs] at h
    simp only at h
    cases r <;> simp <;> omega

theorem execSeq_preserves_depth : ∀ (cs : List ExecCall) (n : Int), (execSeq cs n).2 = n
  | [], n => by simp [execSeq]
  | c :: cs, n => by
    have h1 := execCall_preserves_depth c n
    have h2 := execSeq_preserves_depth cs n
    unfold execSeq
    rcases hc : execCall c n with ⟨r, n1⟩
    rw [hc] at h1
    simp only at h1
    subst h1
    cases r <;> simp [h2]

end

/-- The SPI connection-management primitives invoked by `log_InRelation`. -/
inductive SpiAction where
  | push
  | pop
  | connect
deriving DecidableEq

/-- The depth-comparison connection logic at the head of `log_InRelation`:
`if (nesting_spi_level < nesting_level) { SPI_push(); nesting_spi_level =
nesting_level; }` followed by the separate statement `if (nesting_spi_level >
nesting_level) { SPI_pop(); nesting_spi_level = nesting_level; } else if
(SPI_connect() ...)`.  Returns the SPI actions performed (in order) and the
final `nesting_spi_level`; `SPI_connect` is assumed to succeed (its failure
raises an engine error). -/
def log_InRelation_depth (nesting_spi_level nesting_level : Int) :
    List SpiAction × Int :=
  let p :=
    if nesting_spi_level < nesting_level
    then ([SpiAction.push], nesting_level)
    else ([], nesting_spi_level)
  if p.2 > nesting_level then (p.1 ++ [SpiAction.pop], nesting_level)
  else (p.1 ++ [SpiAction.connect], p.2)

/-- The trailing-newline trim in `explain_ExecutorEnd`:
`if (es->str->len > 0 && es->str->data[es->str->len - 1] == '\n')
es->str->data[--es->str->len] = '\0';`.  The plan text is a `List Char`. -/
def trimTrailingNewline (s : List Char) : List Char :=
  if 0 < s.length ∧ s.getLast? = some '\n' then s.dropLast else s

def lbrace : Char := Char.ofNat 123

def rbrace : Char := Char.ofNat 125

/-- The JSON object repair in `explain_ExecutorEnd`:
`es->str->data[0] = '{'; es->str->data[es->str->len - 1] = '}';`
(overwriting in place, so the length is unchanged). -/
def braceRepair (s : List Char) : List Char :=
  (s.set 0 lbrace).set (s.length - 1) rbrace

/-- `EXPLAIN` output formats of the engine. -/
inductive ExplainFormat where
  | text
  | xml
  | json
  | yaml
deriving DecidableEq

/-- The plan-text post-processing of `explain_ExecutorEnd`: trim one trailing
newline, then, only when the format is JSON, apply the brace repair. -/
def postProcessPlan (format : ExplainFormat) (rendered : List Char) : List Char :=
  let s := trimTrailingNewline rendered
  if format = ExplainFormat.json then braceRepair s else s

/-- The row inserted into the sink by `log_InRelation`: the four SPI
parameters (query text, plan text, total time in milliseconds, hash — the
hash is SQL NULL exactly when `qflash_log_hash` is empty). -/
structure LogRecord where
  queryText : String
  planText : List Char
  totalTimeMs : Rat
  hashTag : Option String
deriving DecidableEq

/-- Everything observable about one `explain_ExecutorEnd` invocation: the
record persisted by `log_InRelation` (if any), whether the hook delegated to
`prev_ExecutorEnd`/`standard_ExecutorEnd`, the `es->format` value in effect
at the JSON-repair test (when a plan was rendered), and the final global
state. -/
structure EndResult where
  record : Option LogRecord
  delegated : Bool
  formatUsed : Option ExplainFormat
  st : QFlashState
deriving DecidableEq

/-- `explain_ExecutorEnd(queryDesc)`.  `totaltime_total` is
`queryDesc->totaltime->total` in seconds after `InstrEndLoop` (the
instrumentation handle is assumed allocated, as arranged by
`explain_ExecutorStart` for eligible executions); `rendered` is the text
produced into `es->str` by the opaque renderer calls
(`ExplainBeginOutput` .. `ExplainEndOutput`).  The settings `es->analyze`,
`verbose`, `buffers`, `timing` and `summary` only influence the opaque
renderer and are not modelled; `es->format` is set to
`EXPLAIN_FORMAT_TEXT` exactly as in the source. -/
def explain_ExecutorEnd (cat : Catalog) (qd : QueryDesc) (totaltime_total : Rat)
    (rendered : List Char) (st : QFlashState) : EndResult :=
  let p := qflash_enabled cat qd st
  if p.1 = true then
    if totaltime_total * 1000 ≤ p.2.qflash_log_min_duration then
      { record := none, delegated := false, formatUsed := none, st := p.2 }
    else
      let fmt := ExplainFormat.text
      let planText := postProcessPlan fmt rendered
      let spi := log_InRelation_depth p.2.nesting_spi_level p.2.nesting_level
      { record := some
          { queryText := qd.sourceText
            planText := planText
            totalTimeMs := totaltime_total * 1000
            hashTag := if p.2.qflash_log_hash.length = 0 then none
                       else some p.2.qflash_log_hash }
        delegated := true
        formatUsed := some fmt
        st := { p.2 with nesting_spi_level := spi.2 } }
  else
    { record := none, delegated := true, formatUsed := none, st := p.2 }

/-- One column definition of the sink table DDL. -/
structure SqlColumn where
  colName : String
  sqlType : String
  notNull : Bool
  defaultExpr : Option String
deriving DecidableEq

/-- Render one column definition the way `qflash_init`'s DDL writes it. -/
def renderColumnDef (c : SqlColumn) : String :=
  c.colName ++ " " ++ c.sqlType
    ++ (if c.notNull then " NOT NULL" else "")
    ++ (match c.defaultExpr with
        | some d => " DEFAULT " ++ d
        | none => "")

/-- Render a `CREATE TABLE` statement in the exact whitespace layout of the
`qflash_init` format string (backslash-newline continuations in the C literal
keep the tab indentation). -/
def renderCreateTable (ns rel : String) (cols : List SqlColumn)
    (pkConstraint pkCol : String) : String :=
  "\t\tCREATE TABLE " ++ ns ++ "." ++ rel ++ "\t\t(" ++
    String.join (cols.map (fun c => "\t\t\t" ++ renderColumnDef c ++ ",")) ++
    "\t\t\tCONSTRAINT " ++ pkConstraint ++ " PRIMARY KEY(" ++ pkCol ++ ")\t\t)\t"

/-- The DDL string built by `qflash_init(namespace_name, relname_name)`:
the C format literal with `%s.%s` substituted. -/
def qflash_ddl_tail : String :=
  "\t\t(\t\t\tid BIGSERIAL NOT NULL,\t\t\tadded TIME WITH TIME ZONE NOT NULL DEFAULT now(),\t\t\tquery TEXT,\t\t\tplan TEXT,\t\t\ttotal_time DOUBLE PRECISION,\t\t\thash TEXT,\t\t\tCONSTRAINT qflash_pkey PRIMARY KEY(id)\t\t)\t"

def qflash_init_ddl (ns rel : String) : String :=
  "\t\tCREATE TABLE " ++ ns ++ "." ++ rel ++ qflash_ddl_tail

/-- The sink columns as the `qflash_init` DDL declares them. -/
def qflash_sink_columns : List SqlColumn :=
  [ { colName := "id", sqlType := "BIGSERIAL", notNull := true, defaultExpr := none }
  , { colName := "added", sqlType := "TIME WITH TIME ZONE", notNull := true,
      defaultExpr := some "now()" }
  , { colName := "query", sqlType := "TEXT", notNull := false, defaultExpr := none }
  , { colName := "plan", sqlType := "TEXT", notNull := false, defaultExpr := none }
  , { colName := "total_time", sqlType := "DOUBLE PRECISION", notNull := false,
      defaultExpr := none }
  , { colName := "hash", sqlType := "TEXT", notNull := false, defaultExpr := none } ]

/-- The sink columns as the specification's claim describes them (the claim
words "added as a timestamp defaulting to now" rendered in the same grammar);
kept for comparison against `qflash_sink_columns`. -/
def claimed_sink_columns : List SqlColumn :=
  [ { colName := "id", sqlType := "BIGSERIAL", notNull := true, defaultExpr := none }
  , { colName := "added", sqlType := "TIMESTAMP", notNull := true,
      defaultExpr := some "now()" }
  , { colName := "query", sqlType := "TEXT", notNull := false, defaultExpr := none }
  , { colName := "plan", sqlType := "TEXT", notNull := false, defaultExpr := none }
  , { colName := "total_time", sqlType := "DOUBLE PRECISION", notNull := false,
      defaultExpr := none }
  , { colName := "hash", sqlType := "TEXT", notNull := false, defaultExpr := none } ]

/-- Whether `pat` occurs at the start of `s`. -/
def startsWithL (s pat : List Char) : Bool :=
  match s, pat with
  | _, [] => true
  | [], _ :: _ => false
  | a :: s1, b :: p1 => a == b && startsWithL s1 p1

/-- Whether `pat` occurs contiguously anywhere in `s`. -/
def containsL (s pat : List Char) : Bool :=
  match s with
  | [] => startsWithL [] pat
  | _ :: s1 => startsWithL s pat || containsL s1 pat

/-- A concrete catalog for witnesses and counterexamples: namespace `logns`
has oid 100, namespace `logns2` has oid 101, and relation `logrel` exists
only inside namespace 100, with oid 200. -/
def exCatalog : Catalog :=
  { get_namespace_oid := fun s =>
      if s = "logns" then 100 else if s = "logns2" then 101 else InvalidOid
    get_relname_relid := fun s ns =>
      if s = "logrel" ∧ ns = 100 then 200 else InvalidOid }

/-- A fully configured, resolved state: logging enabled, sink
`logns.logrel` cached as oids 100/200, zero threshold, top level. -/
def exState : QFlashState :=
  { qflash_enabled_status := true
    qflash_log_min_duration := 0
    qflash_log_hash := ""
    qflash_log_rel_name := "logrel"
    qflash_log_namespace_name := "logns"
    qflash_log_namespace_oid := 100
    qflash_log_rel_oid := 200
    qflash_log_nested := false
    nesting_level := 0
    nesting_spi_level := 0 }

/-- `exState` with a 5 ms minimum-duration threshold. -/
def exStateD5 : QFlashState := { exState with qflash_log_min_duration := 5 }

/-- A top-level SELECT touching one ordinary relation. -/
def qdSel : QueryDesc :=
  { operation := CmdType.select, relationOids := [300], sourceText := "SELECT 1" }

/-- A top-level SELECT with an empty (NULL) touched-relation list. -/
def qdSelNoRels : QueryDesc :=
  { operation := CmdType.select, relationOids := [], sourceText := "SELECT 2" }

/-- A top-level SELECT that touches an ordinary relation first and the sink
relation (oid 200) second, as in a join whose first planned relation is not
the sink. -/
def qdJoinSink : QueryDesc :=
  { operation := CmdType.select, relationOids := [300, 200],
    sourceText := "SELECT a join against the sink" }

/-- Enable, resolve `logns.logrel`, then attempt to switch the namespace to
a nonexistent one (the GUC check refuses the name, but its eager resolution
has already overwritten the cached namespace oid with `InvalidOid`). -/
def c7ops1 : List GucOp :=
  [ GucOp.setEnabled true, GucOp.setNamespaceName "logns",
    GucOp.setRelName "logrel", GucOp.setNamespaceName "nosuch" ]

/-- Enable, resolve `logns.logrel`, then switch the namespace to the valid
`logns2` (accepted; the stale relation oid 200 stays cached even though
`logrel` does not exist in `logns2`). -/
def c7ops2 : List GucOp :=
  [ GucOp.setEnabled true, GucOp.setNamespaceName "logns",
    GucOp.setRelName "logrel", GucOp.setNamespaceName "logns2" ]

/-- While disabled, set the names to `logns` / `badrel` (no eager
resolution), enable, then run an eligibility check: the lazy resolution
succeeds for the namespace and fails for the relation. -/
def c7ops3 : List GucOp :=
  [ GucOp.setNamespaceName "logns", GucOp.setRelName "badrel",
    GucOp.setEnabled true, GucOp.runEligibilityCheck qdSelNoRels ]

theorem set_qflash_namespace_oid_config (cat : Catalog) (s : String)
    (st : QFlashState) :
    (set_qflash_namespace_oid cat s st).2.qflash_log_min_duration
        = st.qflash_log_min_duration
      ∧ (set_qflash_namespace_oid cat s st).2.qflash_log_rel_oid
        = st.qflash_log_rel_oid := by
  unfold set_qflash_namespace_oid
  split
  · exact ⟨rfl, rfl⟩
  · dsimp only
    split <;> exact ⟨rfl, rfl⟩

theorem set_qflash_relname_oid_config (cat : Catalog) (s : String)
    (st : QFlashState) :
    (set_qflash_relname_oid cat s st).2.qflash_log_min_duration
        = st.qflash_log_min_duration := by
  unfold set_qflash_relname_oid
  split
  · rfl
  · dsimp only
    split <;> rfl

theorem get_qflash_log_rel_oid_config (cat : Catalog) (st : QFlashState) :
    (get_qflash_log_rel_oid cat st).2.qflash_log_min_duration
      = st.qflash_log_min_duration := by
  unfold get_qflash_log_rel_oid
  split
  · dsimp only
    rw [set_qflash_relname_oid_config]
    exact (set_qflash_namespace_oid_config cat st.qflash_log_namespace_name st).1
  · rfl

theorem qflash_enabled_min_duration (cat : Catalog) (qd : QueryDesc)
    (st : QFlashState) :
    (qflash_enabled cat qd st).2.qflash_log_min_duration
      = st.qflash_log_min_duration := by
  unfold qflash_enabled
  split
  · dsimp only
    split <;> exact get_qflash_log_rel_oid_config cat st
  · rfl

theorem get_qflash_log_rel_oid_cached (cat : Catalog) (st : QFlashState)
    (h : OidIsValid st.qflash_log_rel_oid = true) :
    get_qflash_log_rel_oid cat st = (st.qflash_log_rel_oid, st) := by
  unfold get_qflash_log_rel_oid
  rw [if_neg]
  simp [h]

/-- The oid returned by `get_qflash_log_rel_oid` is always the memoized
relation oid of the state it leaves behind. -/
theorem get_qflash_log_rel_oid_returns_cache (cat : Catalog) (st : QFlashState) :
    (get_qflash_log_rel_oid cat st).1
      = (get_qflash_log_rel_oid cat st).2.qflash_log_rel_oid := by
  unfold get_qflash_log_rel_oid
  split <;> rfl

/-- C4: the run and finish hooks increment the execution-depth counter
before delegating (the delegate runs at `n + 1`) and decrement it after on
both the normal and the abnormal path (final depth is the delegate's final
depth minus one, and a delegate error is re-thrown unchanged); consequently
every hooked execution restores the depth it was entered at, and any
top-level execution — aborting or not — ends with `nesting_level = 0`. -/
theorem c4_depth_invariant :
    (∀ (inner : Int → Except Unit Unit × Int) (n : Int),
        (explain_ExecutorRun inner n).2 = (inner (n + 1)).2 - 1
          ∧ (explain_ExecutorRun inner n).1 = (inner (n + 1)).1)
  ∧ (∀ (inner : Int → Except Unit Unit × Int) (n : Int),
        (explain_ExecutorFinish inner n).2 = (inner (n + 1)).2 - 1
          ∧ (explain_ExecutorFinish inner n).1 = (inner (n + 1)).1)
  ∧ (∀ (c : ExecCall) (n : Int), (execCall c n).2 = n)
  ∧ (∀ (c : ExecCall), (execCall c 0).2 = 0) := by
  refine ⟨?_, ?_, execCall_preserves_depth, fun c => execCall_preserves_depth c 0⟩
  · intro inner n
    unfold explain_ExecutorRun
    rcases h : inner (n + 1) with ⟨r, n1⟩
    cases r with
    | ok a => cases a; exact ⟨rfl, rfl⟩
    | error e => exact ⟨rfl, rfl⟩
  · intro inner n
    unfold explain_ExecutorFinish
    rcases h : inner (n + 1) with ⟨r, n1⟩
    cases r with
    | ok a => cases a; exact ⟨rfl, rfl⟩
    | error e => exact ⟨rfl, rfl⟩

/-- C6 (amended): the depth comparison in `log_InRelation` performs `push`
followed by `connect` when `executionDepth > connectionDepth` (the pop/connect
conditional is evaluated after the push already updated `nesting_spi_level`,
so its `else` branch establishes a connection even in the push case), `pop`
alone when `executionDepth < connectionDepth`, and `connect` alone when the
depths are equal; after every call `nesting_spi_level = nesting_level`. -/
theorem c6_connection_stacking_amended :
    (∀ (spi lvl : Int),
        log_InRelation_depth spi lvl =
          (if spi < lvl then ([SpiAction.push, SpiAction.connect], lvl)
           else if lvl < spi then ([SpiAction.pop], lvl)
           else ([SpiAction.connect], spi)))
  ∧ (∀ (spi lvl : Int), (log_InRelation_depth spi lvl).2 = lvl) := by
  have hmain : ∀ (spi lvl : Int),
      log_InRelation_depth spi lvl =
        (if spi < lvl then ([SpiAction.push, SpiAction.connect], lvl)
         else if lvl < spi then ([SpiAction.pop], lvl)
         else ([SpiAction.connect], spi)) := by
    intro spi lvl
    unfold log_InRelation_depth
    by_cases h1 : spi < lvl
    · rw [if_pos h1, if_pos h1]
      dsimp only
      rw [if_neg (lt_irrefl lvl)]
      rfl
    · rw [if_neg h1, if_neg h1]
      dsimp only
      by_cases h2 : lvl < spi
      · rw [if_pos h2, if_pos h2]
        rfl
      · rw [if_neg h2, if_neg h2]
        rfl
  refine ⟨hmain, ?_⟩
  intro spi lvl
  rw [hmain]
  by_cases h1 : spi < lvl
  · rw [if_pos h1]
  · rw [if_neg h1]
    by_cases h2 : lvl < spi
    · rw [if_pos h2]
    · rw [if_neg h2]
      dsimp only
      omega

/-- C6 counterexample: at `connectionDepth = 0 < executionDepth = 1` the
code performs a push AND THEN also establishes a connection, so the three
actions are not mutually exclusive as the claim states. -/
theorem c6_connection_stacking_counterexample :
    (log_InRelation_depth 0 1).1 = [SpiAction.push, SpiAction.connect]
      ∧ ¬ (log_InRelation_depth 0 1).1 = [SpiAction.push] := by decide

/-- C8: the trailing-newline trim removes exactly one terminator when the
text ends with one (appending the terminator back restores the original) and
is the identity otherwise; the JSON brace repair is idempotent on texts of
at least two characters. -/
theorem c8_plan_fixup :
    (∀ s : List Char, s.getLast? = some '\n' →
        trimTrailingNewline s ++ ['\n'] = s)
  ∧ (∀ s : List Char, s.getLast? ≠ some '\n' → trimTrailingNewline s = s)
  ∧ (∀ s : List Char, 2 ≤ s.length →
        braceRepair (braceRepair s) = braceRepair s) := by
  refine ⟨?_, ?_, ?_⟩
  · intro s h
    have hne : s ≠ [] := by
      intro he
      rw [he] at h
      simp at h
    have hlen : 0 < s.length := List.length_pos.mpr hne
    unfold trimTrailingNewline
    rw [if_pos ⟨hlen, h⟩]
    exact List.dropLast_append_getLast? '\n' (Option.mem_def.mpr h)
  · intro s h
    unfold trimTrailingNewline
    rw [if_neg]
    intro hc
    exact h hc.2
  · intro s h
    unfold braceRepair
    have hlen : ((s.set 0 lbrace).set (s.length - 1) rbrace).length = s.length := by
      simp
    rw [hlen]
    have hne : (s.length - 1) ≠ 0 := by omega
    have h1 : ((s.set 0 lbrace).set (s.length - 1) rbrace).set 0 lbrace
        = (s.set 0 lbrace).set (s.length - 1) rbrace := by
      rw [List.set_comm _ _ _ hne, List.set_set]
    rw [h1, List.set_set]

/-- C8 witness: concrete instances of the three parts — trimming
`['p', '\n']`, trimming terminator-free `['p', 'q']`, and re-repairing the
repaired three-character text `['(', 'x', ')']`. -/
theorem c8_plan_fixup_witness :
    (trimTrailingNewline ['p', '\n'] ++ ['\n'] = ['p', '\n'])
      ∧ (trimTrailingNewline ['p', 'q'] = ['p', 'q'])
      ∧ (braceRepair (braceRepair ['(', 'x', ')']) = braceRepair ['(', 'x', ')']) :=
  ⟨c8_plan_fixup.1 ['p', '\n'] (by decide),
   c8_plan_fixup.2.1 ['p', 'q'] (by decide),
   c8_plan_fixup.2.2 ['(', 'x', ')'] (by decide)⟩

/-- C10: the rendering format is unconditionally `EXPLAIN_FORMAT_TEXT`
whenever a plan is rendered, so the JSON brace-repair branch never fires and
the persisted plan text is exactly the newline-trimmed rendered text. -/
theorem c10_text_format_only :
    ∀ (cat : Catalog) (qd : QueryDesc) (tt : Rat) (rendered : List Char)
      (st : QFlashState),
      (explain_ExecutorEnd cat qd tt rendered st).record.map LogRecord.planText
          = (explain_ExecutorEnd cat qd tt rendered st).record.map
              (fun _ => trimTrailingNewline rendered)
        ∧ ((explain_ExecutorEnd cat qd tt rendered st).formatUsed = none
            ∨ (explain_ExecutorEnd cat qd tt rendered st).formatUsed
                = some ExplainFormat.text) := by
  intro cat qd tt rendered st
  unfold explain_ExecutorEnd
  dsimp only
  split
  · split
    · exact ⟨rfl, Or.inl rfl⟩
    · refine ⟨?_, Or.inr rfl⟩
      simp [postProcessPlan]
  · exact ⟨rfl, Or.inl rfl⟩

theorem qflash_enabled_true_elim (cat : Catalog) (qd : QueryDesc)
    (st : QFlashState) (h : (qflash_enabled cat qd st).1 = true) :
    st.qflash_enabled_status = true
      ∧ (st.nesting_level = 0 ∨ st.qflash_log_nested = true)
      ∧ (qflash_enabled cat qd st).2 = (get_qflash_log_rel_oid cat st).2
      ∧ OidIsValid (qflash_enabled cat qd st).2.qflash_log_rel_oid = true
      ∧ (qd.operation = CmdType.select ∨ qd.operation = CmdType.update
          ∨ qd.operation = CmdType.insert ∨ qd.operation = CmdType.delete)
      ∧ qflash_recursion_guard qd.relationOids
          (qflash_enabled cat qd st).2.qflash_log_rel_oid = true := by
  by_cases h1 : st.qflash_enabled_status = true
      ∧ (st.nesting_level = 0 ∨ st.qflash_log_nested = true)
  · by_cases h2 : OidIsValid (get_qflash_log_rel_oid cat st).1 = true
        ∧ (qd.operation = CmdType.select ∨ qd.operation = CmdType.update
            ∨ qd.operation = CmdType.insert ∨ qd.operation = CmdType.delete)
    · have heq : qflash_enabled cat qd st
          = (qflash_recursion_guard qd.relationOids
              (get_qflash_log_rel_oid cat st).2.qflash_log_rel_oid,
             (get_qflash_log_rel_oid cat st).2) := by
        unfold qflash_enabled
        rw [if_pos h1]
        dsimp only
        rw [if_pos h2]
      rw [heq] at h
      rw [heq]
      refine ⟨h1.1, h1.2, rfl, ?_, h2.2, h⟩
      rw [← get_qflash_log_rel_oid_returns_cache]
      exact h2.1
    · have heq : qflash_enabled cat qd st
          = (false, (get_qflash_log_rel_oid cat st).2) := by
        unfold qflash_enabled
        rw [if_pos h1]
        dsimp only
        rw [if_neg h2]
      rw [heq] at h
      simp at h
  · have heq : qflash_enabled cat qd st = (false, st) := by
      unfold qflash_enabled
      rw [if_neg h1]
    rw [heq] at h
    simp at h

theorem qflash_enabled_cached_state (cat : Catalog) (qd : QueryDesc)
    (st : QFlashState) (h : OidIsValid st.qflash_log_rel_oid = true) :
    (qflash_enabled cat qd st).2 = st := by
  unfold qflash_enabled
  split
  · dsimp only
    rw [get_qflash_log_rel_oid_cached cat st h]
    split <;> rfl
  · rfl

theorem qflash_recursion_guard_true (ros : List Oid) (oid : Oid)
    (h : qflash_recursion_guard ros oid = true) :
    ros = [] ∨ (ros.headD InvalidOid ≠ oid ∧ ros.headD InvalidOid ≠ TypeRelationId) := by
  rcases ros with _ | ⟨a, t⟩
  · exact Or.inl rfl
  · right
    unfold qflash_recursion_guard at h
    simp at h
    exact ⟨h.1, h.2⟩

theorem explain_ExecutorEnd_some_elim (cat : Catalog) (qd : QueryDesc)
    (tt : Rat) (rendered : List Char) (st : QFlashState)
    (h : (explain_ExecutorEnd cat qd tt rendered st).record.isSome = true) :
    (qflash_enabled cat qd st).1 = true
      ∧ (explain_ExecutorEnd cat qd tt rendered st).st.qflash_log_rel_oid
          = (qflash_enabled cat qd st).2.qflash_log_rel_oid := by
  unfold explain_ExecutorEnd at h ⊢
  dsimp only at h ⊢
  by_cases he : (qflash_enabled cat qd st).1 = true
  · rw [if_pos he] at h ⊢
    by_cases hf : tt * 1000 ≤ (qflash_enabled cat qd st).2.qflash_log_min_duration
    · rw [if_pos hf] at h
      simp at h
    · rw [if_neg hf] at h ⊢
      exact ⟨he, rfl⟩
  · rw [if_neg he] at h
    simp at h

/-- C5 (amended): `qflash_enabled` returns true only if the enabled flag is
set, the execution is top-level or nested logging is allowed, the memoized
sink relation identifier is valid after the (lazy) resolution attempt, and
the operation kind is select/update/insert/delete; when the relation
identifier was already cached the state (in particular the namespace
identifier) is left untouched and unexamined. -/
theorem c5_eligibility_only_if_amended :
    ∀ (cat : Catalog) (qd : QueryDesc) (st : QFlashState),
      (qflash_enabled cat qd st).1 = true →
        st.qflash_enabled_status = true
          ∧ (st.nesting_level = 0 ∨ st.qflash_log_nested = true)
          ∧ OidIsValid (qflash_enabled cat qd st).2.qflash_log_rel_oid = true
          ∧ (qd.operation = CmdType.select ∨ qd.operation = CmdType.update
              ∨ qd.operation = CmdType.insert ∨ qd.operation = CmdType.delete)
          ∧ (OidIsValid st.qflash_log_rel_oid = true →
              (qflash_enabled cat qd st).2 = st) := by
  intro cat qd st h
  obtain ⟨a, b, _, d, e, _⟩ := qflash_enabled_true_elim cat qd st h
  exact ⟨a, b, d, e, fun hc => qflash_enabled_cached_state cat qd st hc⟩

/-- C5 witness: the amended conditions instantiated at the concrete eligible
state `exState` and query `qdSel`. -/
theorem c5_eligibility_witness :
    exState.qflash_enabled_status = true
      ∧ (exState.nesting_level = 0 ∨ exState.qflash_log_nested = true)
      ∧ OidIsValid (qflash_enabled exCatalog qdSel exState).2.qflash_log_rel_oid = true
      ∧ (qdSel.operation = CmdType.select ∨ qdSel.operation = CmdType.update
          ∨ qdSel.operation = CmdType.insert ∨ qdSel.operation = CmdType.delete)
      ∧ (qflash_enabled exCatalog qdSel exState).2 = exState := by
  have h := c5_eligibility_only_if_amended exCatalog qdSel exState (by decide)
  exact ⟨h.1, h.2.1, h.2.2.1, h.2.2.2.1, h.2.2.2.2 (by decide)⟩

/-- C5 counterexample: two reachable states on which `qflash_enabled`
returns true although the sink namespace does not resolve in the claimed
sense — after `c7ops1` the cached namespace identifier is `InvalidOid`
(while the relation identifier is still the valid 200), and after `c7ops2`
the configured relation name no longer resolves under the current cached
namespace identifier. -/
theorem c5_eligibility_counterexample :
    ((qflash_enabled exCatalog qdSelNoRels (runGucOps exCatalog c7ops1)).1 = true
      ∧ (runGucOps exCatalog c7ops1).qflash_log_namespace_oid = InvalidOid)
    ∧ ((qflash_enabled exCatalog qdSelNoRels (runGucOps exCatalog c7ops2)).1 = true
      ∧ exCatalog.get_relname_relid
          (runGucOps exCatalog c7ops2).qflash_log_rel_name
          (runGucOps exCatalog c7ops2).qflash_log_namespace_oid = InvalidOid) := by
  decide

/-- C1 (amended): `qflash_enabled` accepts an execution only if its
touched-resource list is empty or its FIRST element differs from both the
sink relation's identifier and the type-catalog identifier; an empty list
passes the guard; consequently no LogRecord is produced for an execution
whose first touched resource is the sink relation.  (The code inspects only
the head of `relationOids`, not membership in the whole list.) -/
theorem c1_recursion_guard_amended :
    (∀ (cat : Catalog) (qd : QueryDesc) (st : QFlashState),
        (qflash_enabled cat qd st).1 = true →
          qd.relationOids = []
            ∨ (qd.relationOids.headD InvalidOid
                  ≠ (qflash_enabled cat qd st).2.qflash_log_rel_oid
                ∧ qd.relationOids.headD InvalidOid ≠ TypeRelationId))
  ∧ (∀ oid : Oid, qflash_recursion_guard [] oid = true)
  ∧ (∀ (cat : Catalog) (qd : QueryDesc) (tt : Rat) (rendered : List Char)
        (st : QFlashState),
        (explain_ExecutorEnd cat qd tt rendered st).record.isSome = true →
          qd.relationOids = []
            ∨ qd.relationOids.headD InvalidOid
                ≠ (explain_ExecutorEnd cat qd tt rendered st).st.qflash_log_rel_oid) := by
  have hpart1 : ∀ (cat : Catalog) (qd : QueryDesc) (st : QFlashState),
      (qflash_enabled cat qd st).1 = true →
        qd.relationOids = []
          ∨ (qd.relationOids.headD InvalidOid
                ≠ (qflash_enabled cat qd st).2.qflash_log_rel_oid
              ∧ qd.relationOids.headD InvalidOid ≠ TypeRelationId) := by
    intro cat qd st h
    obtain ⟨_, _, _, _, _, hg⟩ := qflash_enabled_true_elim cat qd st h
    exact qflash_recursion_guard_true qd.relationOids _ hg
  refine ⟨hpart1, fun oid => rfl, ?_⟩
  intro cat qd tt rendered st h
  obtain ⟨he, hst⟩ := explain_ExecutorEnd_some_elim cat qd tt rendered st h
  rcases hpart1 cat qd st he with hnil | ⟨hne, _⟩
  · exact Or.inl hnil
  · right
    rw [hst]
    exact hne

/-- C1 witness: the amended guard instantiated at the eligible `qdSel`
(whose first touched resource, 300, is neither the sink oid 200 nor the
type-catalog oid), plus a record-producing execution at the same query. -/
theorem c1_recursion_guard_witness :
    (qdSel.relationOids = []
        ∨ (qdSel.relationOids.headD InvalidOid
              ≠ (qflash_enabled exCatalog qdSel exState).2.qflash_log_rel_oid
            ∧ qdSel.relationOids.headD InvalidOid ≠ TypeRelationId))
      ∧ qflash_recursion_guard [] 200 = true
      ∧ (qdSel.relationOids = []
          ∨ qdSel.relationOids.headD InvalidOid
              ≠ (explain_ExecutorEnd exCatalog qdSel 1 ['x'] exState).st.qflash_log_rel_oid) := by
  refine ⟨c1_recursion_guard_amended.1 exCatalog qdSel exState (by decide),
    c1_recursion_guard_amended.2.1 200,
    c1_recursion_guard_amended.2.2 exCatalog qdSel 1 ['x'] exState ?_⟩
  have he : qflash_enabled exCatalog qdSel exState = (true, exState) := by decide
  have hd : exState.qflash_log_min_duration = 0 := by decide
  simp only [explain_ExecutorEnd, he, hd]
  norm_num

/-- C1 counterexample: `qdJoinSink` touches the sink relation (oid 200 is a
member of its touched-resource list) yet is eligible and produces a
LogRecord, because only the first element (300) is compared. -/
theorem c1_recursion_guard_counterexample :
    (qflash_enabled exCatalog qdJoinSink exState).1 = true
      ∧ exState.qflash_log_rel_oid = 200
      ∧ (200 ∈ qdJoinSink.relationOids)
      ∧ (explain_ExecutorEnd exCatalog qdJoinSink 1 ['x'] exState).record.isSome = true := by
  refine ⟨by decide, by decide, by decide, ?_⟩
  have he : qflash_enabled exCatalog qdJoinSink exState = (true, exState) := by decide
  have hd : exState.qflash_log_min_duration = 0 := by decide
  simp only [explain_ExecutorEnd, he, hd]
  norm_num

/-- C3 (amended): for an eligible execution with threshold `D =
qflash.log_min_duration` and measured time `t = total × 1000` milliseconds,
no LogRecord is produced when `t ≤ D` (the comparison in the source is
`<=`), and exactly one is produced when `t > D`. -/
theorem c3_duration_filter_amended :
    ∀ (cat : Catalog) (qd : QueryDesc) (tt : Rat) (rendered : List Char)
      (st : QFlashState),
      (qflash_enabled cat qd st).1 = true →
        (tt * 1000 ≤ st.qflash_log_min_duration →
          (explain_ExecutorEnd cat qd tt rendered st).record.isSome = false)
        ∧ (st.qflash_log_min_duration < tt * 1000 →
          (explain_ExecutorEnd cat qd tt rendered st).record.isSome = true) := by
  intro cat qd tt rendered st he
  have hmd := qflash_enabled_min_duration cat qd st
  constructor
  · intro hle
    unfold explain_ExecutorEnd
    dsimp only
    rw [if_pos he, if_pos (by rw [hmd]; exact hle)]
    rfl
  · intro hlt
    unfold explain_ExecutorEnd
    dsimp only
    rw [if_pos he, if_neg (by rw [hmd]; exact not_le.mpr hlt)]
    rfl

/-- C3 witness: with threshold 5 ms, a 1 ms eligible execution produces no
record and a 1000 ms one produces a record. -/
theorem c3_duration_filter_witness :
    ((explain_ExecutorEnd exCatalog qdSel (1/1000) ['x'] exStateD5).record.isSome = false)
      ∧ ((explain_ExecutorEnd exCatalog qdSel 1 ['x'] exStateD5).record.isSome = true) := by
  have hd : exStateD5.qflash_log_min_duration = 5 := by decide
  constructor
  · refine (c3_duration_filter_amended exCatalog qdSel (1/1000) ['x'] exStateD5 (by decide)).1 ?_
    rw [hd]
    norm_num
  · refine (c3_duration_filter_amended exCatalog qdSel 1 ['x'] exStateD5 (by decide)).2 ?_
    rw [hd]
    norm_num

/-- C3 counterexample: at the boundary `t = D` (threshold 5 ms, measured
exactly 5 ms) the eligible execution produces NO record, although the claim
requires exactly one at `t ≥ D`. -/
theorem c3_duration_filter_counterexample :
    (qflash_enabled exCatalog qdSel exStateD5).1 = true
      ∧ ((5 : Rat)/1000) * 1000 ≥ exStateD5.qflash_log_min_duration
      ∧ (explain_ExecutorEnd exCatalog qdSel ((5 : Rat)/1000) ['x'] exStateD5).record.isSome
          = false := by
  have hd : exStateD5.qflash_log_min_duration = 5 := by decide
  have he : qflash_enabled exCatalog qdSel exStateD5 = (true, exStateD5) := by decide
  refine ⟨by decide, ?_, ?_⟩
  · rw [hd]
    norm_num
  · simp only [explain_ExecutorEnd, he, hd]
    norm_num

/-- C2: the code violates the claim — on an eligible execution rejected by
the minimum-duration filter, `explain_ExecutorEnd` hits the early `return`
before the final `prev_ExecutorEnd`/`standard_ExecutorEnd` call, so it does
NOT delegate (here: eligible SELECT, 1 ms measured, 5 ms threshold). -/
theorem c2_end_hook_missing_delegation :
    (qflash_enabled exCatalog qdSel exStateD5).1 = true
      ∧ (explain_ExecutorEnd exCatalog qdSel (1/1000) ['x'] exStateD5).delegated = false := by
  have hd : exStateD5.qflash_log_min_duration = 5 := by decide
  have he : qflash_enabled exCatalog qdSel exStateD5 = (true, exStateD5) := by decide
  refine ⟨by decide, ?_⟩
  simp only [explain_ExecutorEnd, he, hd]
  norm_num

theorem containsL_append_right (a b pat : List Char)
    (h : containsL b pat = true) : containsL (a ++ b) pat = true := by
  induction a with
  | nil => exact h
  | cons x xs ih =>
    show (startsWithL (x :: (xs ++ b)) pat || containsL (xs ++ b) pat) = true
    rw [Bool.or_eq_true]
    exact Or.inr ih

/-- C7 (amended): turning the enabled flag off invalidates both cached sink
identifiers together; the lazily returned sink identifier is always the
memoized relation identifier (so a failed lazy resolution leaves the
relation identifier unset, though the namespace identifier may stay set);
a successful relation resolution requires — and leaves — a valid namespace
identifier; and a namespace/relation name change while disabled commits the
string without touching either cached identifier (name changes never
invalidate both identifiers together). -/
theorem c7_oid_invariants_amended :
    (∀ st : QFlashState,
        (guc_setEnabled false st).qflash_log_rel_oid = InvalidOid
          ∧ (guc_setEnabled false st).qflash_log_namespace_oid = InvalidOid)
  ∧ (∀ (cat : Catalog) (st : QFlashState),
        (get_qflash_log_rel_oid cat st).1
          = (get_qflash_log_rel_oid cat st).2.qflash_log_rel_oid)
  ∧ (∀ (cat : Catalog) (name : String) (st : QFlashState),
        (set_qflash_relname_oid cat name st).1 = true →
          OidIsValid (set_qflash_relname_oid cat name st).2.qflash_log_namespace_oid = true
            ∧ OidIsValid (set_qflash_relname_oid cat name st).2.qflash_log_rel_oid = true)
  ∧ (∀ (cat : Catalog) (s : String) (st : QFlashState),
        st.qflash_enabled_status = false →
          guc_setNamespaceName cat s st = { st with qflash_log_namespace_name := s }
            ∧ guc_setRelName cat s st = { st with qflash_log_rel_name := s }) := by
  refine ⟨?_, get_qflash_log_rel_oid_returns_cache, ?_, ?_⟩
  · intro st
    unfold guc_setEnabled enabled_GucAssign
    exact ⟨rfl, rfl⟩
  · intro cat name st h
    unfold set_qflash_relname_oid at h ⊢
    by_cases h1 : OidIsValid st.qflash_log_namespace_oid = false ∨ name.length = 0
    · rw [if_pos h1] at h
      simp at h
    · rw [if_neg h1] at h ⊢
      dsimp only at h ⊢
      by_cases h2 : OidIsValid (cat.get_relname_relid name st.qflash_log_namespace_oid) = false
      · rw [if_pos h2] at h
        simp at h
      · rw [if_neg h2]
        have hns : OidIsValid st.qflash_log_namespace_oid = true := by
          cases hb : OidIsValid st.qflash_log_namespace_oid
          · exact absurd (Or.inl hb) h1
          · rfl
        have hrel :
            OidIsValid (cat.get_relname_relid name st.qflash_log_namespace_oid) = true := by
          cases hb : OidIsValid (cat.get_relname_relid name st.qflash_log_namespace_oid)
          · exact absurd hb h2
          · rfl
        exact ⟨hns, hrel⟩
  · intro cat s st h
    constructor
    · unfold guc_setNamespaceName namespace_GucCheck
      simp [h]
    · unfold guc_setRelName rel_GucCheck
      simp [h]

/-- C7 witness: the amended parts instantiated — disabling from `exState`
clears both oids; resolving `logrel` from `exState` succeeds with both oids
valid; a name change on the disabled `initialState` only commits the
string. -/
theorem c7_oid_invariants_witness :
    ((guc_setEnabled false exState).qflash_log_rel_oid = InvalidOid
        ∧ (guc_setEnabled false exState).qflash_log_namespace_oid = InvalidOid)
      ∧ (OidIsValid (set_qflash_relname_oid exCatalog "logrel" exState).2.qflash_log_namespace_oid = true
        ∧ OidIsValid (set_qflash_relname_oid exCatalog "logrel" exState).2.qflash_log_rel_oid = true)
      ∧ guc_setNamespaceName exCatalog "xyz" initialState
          = { initialState with qflash_log_namespace_name := "xyz" } := by
  refine ⟨c7_oid_invariants_amended.1 exState,
    c7_oid_invariants_amended.2.2.1 exCatalog "logrel" exState (by decide),
    (c7_oid_invariants_amended.2.2.2 exCatalog "xyz" initialState (by decide)).1⟩

/-- C7 counterexample: three reachable states violating the claim — after
`c7ops1` the relation identifier is valid (200) while the namespace
identifier is `InvalidOid`; after `c7ops2` a committed namespace-name change
left the stale relation identifier 200 cached (no joint invalidation);
after `c7ops3` a failed lazy resolution left the namespace identifier set
(100) while the relation identifier is unset. -/
theorem c7_oid_invariants_counterexample :
    ((runGucOps exCatalog c7ops1).qflash_log_rel_oid = 200
        ∧ (runGucOps exCatalog c7ops1).qflash_log_namespace_oid = InvalidOid)
      ∧ ((runGucOps exCatalog c7ops2).qflash_log_namespace_name = "logns2"
        ∧ (runGucOps exCatalog c7ops2).qflash_log_rel_oid = 200)
      ∧ ((runGucOps exCatalog c7ops3).qflash_log_rel_oid = InvalidOid
        ∧ (runGucOps exCatalog c7ops3).qflash_log_namespace_oid = 100) := by
  decide

/-- C9 (amended): for every namespace and relation argument, `qflash_init`
issues exactly the `CREATE TABLE` DDL described by `qflash_sink_columns`
with primary-key constraint `qflash_pkey` on `id` — i.e. `id BIGSERIAL NOT
NULL` (primary key), `added TIME WITH TIME ZONE NOT NULL DEFAULT now()` (a
time-of-day with time zone, not a timestamp), `query TEXT`, `plan TEXT`,
`total_time DOUBLE PRECISION`, `hash TEXT`; in particular the DDL always
contains the `added TIME WITH TIME ZONE NOT NULL DEFAULT now()` column
definition. -/
theorem c9_sink_ddl_amended :
    (∀ ns rel : String,
        qflash_init_ddl ns rel
          = renderCreateTable ns rel qflash_sink_columns "qflash_pkey" "id")
  ∧ (∀ ns rel : String,
        containsL (qflash_init_ddl ns rel).toList
          ("added TIME WITH TIME ZONE NOT NULL DEFAULT now()".toList) = true) := by
  constructor
  · intro ns rel
    unfold qflash_init_ddl renderCreateTable
    have h : qflash_ddl_tail
        = "\t\t(" ++ (String.join (qflash_sink_columns.map
              (fun c => "\t\t\t" ++ renderColumnDef c ++ ","))
            ++ ("\t\t\tCONSTRAINT " ++ ("qflash_pkey"
              ++ (" PRIMARY KEY(" ++ ("id" ++ ")\t\t)\t"))))) := by decide
    rw [h]
    simp only [String.append_assoc]
  · intro ns rel
    have hx : (qflash_init_ddl ns rel).toList
        = "\t\tCREATE TABLE ".toList
          ++ (ns.toList ++ (".".toList ++ (rel.toList ++ qflash_ddl_tail.toList))) := by
      simp [qflash_init_ddl, String.toList]
    rw [hx]
    apply containsL_append_right
    apply containsL_append_right
    apply containsL_append_right
    apply containsL_append_right
    decide

/-- C9 counterexample: the DDL declares `added` with type `TIME WITH TIME
ZONE` (a time-of-day), and nowhere contains `TIMESTAMP`; rendering the
claim's column list (with `added TIMESTAMP`) does not give the issued DDL. -/
theorem c9_sink_ddl_counterexample :
    containsL (qflash_init_ddl "s" "t").toList
        ("added TIME WITH TIME ZONE NOT NULL DEFAULT now()".toList) = true
      ∧ containsL (qflash_init_ddl "s" "t").toList ("TIMESTAMP".toList) = false
      ∧ renderCreateTable "s" "t" claimed_sink_columns "qflash_pkey" "id"
          ≠ qflash_init_ddl "s" "t"
      ∧ (qflash_sink_columns.filter (fun c => c.colName = "added")).map SqlColumn.sqlType
          = ["TIME WITH TIME ZONE"] := by
  refine ⟨by decide, by decide, by decide, by decide⟩
